import Mathlib

/-!
Shallow embedding of the real-time audio core of the osci-rs repository
(src/audio/buffer.rs, src/audio/engine.rs, src/effects, src/shapes), with
theorems settling the frozen claims about it.

Modelling conventions:
* Rust `f32` values are modelled as exact rationals (`ℚ`); transcendental
  operations (`sin`, `cos`) and the `f32` constant `TAU` are kept abstract in a
  `TrigModel` parameter, so no fact is assumed about them beyond what a given
  theorem states as a hypothesis.
* Mutex / RwLock acquisition outcomes are modelled as explicit boolean inputs;
  the state-mutating success path of each operation is the modelled transition.
* `u64` / `usize` counters are modelled as `ℕ` (the claims never approach
  wrap-around of a 64-bit counter).
-/

set_option maxHeartbeats 1000000

namespace OsciRs

/-- A 2D sample point: `XYSample` in src/audio/buffer.rs (left = X, right = Y). -/
structure XYSample where
  x : ℚ
  y : ℚ
deriving DecidableEq

/-- `XYSample::default()`: both fields are `f32::default() = 0.0`. -/
def XYSample.zero : XYSample := ⟨0, 0⟩

/-! ## Sample ring buffer (src/audio/buffer.rs)

`BufferInner` is the state behind the mutex of `SampleBuffer`.  All operations
below model the lock-success path of the corresponding Rust method (`try_lock`
succeeding); contention simply leaves the state unchanged in the real program.
-/

/-- `BufferInner` in src/audio/buffer.rs. -/
structure BufferInner where
  samples : List XYSample
  writePos : ℕ
  samplesWritten : ℕ
deriving DecidableEq

/-- `SampleBuffer::new(capacity)`: `vec![XYSample::default(); capacity]`,
cursor 0, counter 0. -/
def SampleBuffer.new (capacity : ℕ) : BufferInner :=
  ⟨List.replicate capacity XYSample.zero, 0, 0⟩

/-- `SampleBuffer::push` (lock-success path): write at `write_pos`, advance the
cursor mod the length, bump the counter.  Rust indexing `samples[pos] = sample`
is modelled by `List.set` (the in-bounds condition is tracked separately by
`BufferInner.opIndicesOk`). -/
def BufferInner.push (b : BufferInner) (s : XYSample) : BufferInner :=
  ⟨b.samples.set b.writePos s, (b.writePos + 1) % b.samples.length, b.samplesWritten + 1⟩

/-- The write loop of `SampleBuffer::push_slice`: `for &sample in samples { ... }`,
threading the local `pos` variable. -/
def pushSliceLoop (len : ℕ) : List XYSample → List XYSample → ℕ → List XYSample × ℕ
  | samples, [], pos => (samples, pos)
  | samples, s :: rest, pos => pushSliceLoop len (samples.set pos s) rest ((pos + 1) % len)

/-- `SampleBuffer::push_slice` (lock-success path). -/
def BufferInner.pushSlice (b : BufferInner) (ss : List XYSample) : BufferInner :=
  let r := pushSliceLoop b.samples.length b.samples ss b.writePos
  ⟨r.1, r.2, b.samplesWritten + ss.length⟩

/-- `SampleBuffer::clear` (lock-success path): every stored sample is set to
`XYSample::default()` and the cursor returns to 0; the written counter is not
touched. -/
def BufferInner.clear (b : BufferInner) : BufferInner :=
  ⟨b.samples.map (fun _ => XYSample.zero), 0, b.samplesWritten⟩

/-- `SampleBuffer::get_samples`: all `len` stored samples oldest-to-newest,
starting at the write cursor and wrapping. -/
def BufferInner.getSamples (b : BufferInner) : List XYSample :=
  (List.range b.samples.length).map
    (fun i => b.samples.getD ((b.writePos + i) % b.samples.length) XYSample.zero)

/-- `SampleBuffer::samples_written`. -/
def BufferInner.samplesWrittenVal (b : BufferInner) : ℕ := b.samplesWritten

/-- Pushing a whole list one sample at a time (repeated `SampleBuffer::push`). -/
def BufferInner.pushList (b : BufferInner) : List XYSample → BufferInner
  | [] => b
  | s :: rest => (b.push s).pushList rest

/-- The cursor invariant of the ring buffer: `write_pos` lies in
`[0, capacity)`. -/
def BufferInner.inv (b : BufferInner) : Prop := b.writePos < b.samples.length

instance (b : BufferInner) : Decidable b.inv := by
  unfold BufferInner.inv; infer_instance

/-- The three mutating buffer operations, as data (for quantifying over
arbitrary operation sequences). -/
inductive BufOp where
  | push (s : XYSample)
  | pushSlice (ss : List XYSample)
  | clear
deriving DecidableEq

/-- Apply one buffer operation. -/
def BufferInner.applyOp (b : BufferInner) : BufOp → BufferInner
  | .push s => b.push s
  | .pushSlice ss => b.pushSlice ss
  | .clear => b.clear

/-- Apply a sequence of buffer operations, left to right. -/
def BufferInner.applyOps (b : BufferInner) : List BufOp → BufferInner
  | [] => b
  | op :: rest => (b.applyOp op).applyOps rest

/-- In-bounds condition for every raw array write performed by the
`push_slice` loop: each iteration writes at the current `pos`. -/
def sliceIndicesOk (len : ℕ) : ℕ → List XYSample → Prop
  | _, [] => True
  | pos, _ :: rest => pos < len ∧ sliceIndicesOk len ((pos + 1) % len) rest

instance (len pos : ℕ) (ss : List XYSample) : Decidable (sliceIndicesOk len pos ss) := by
  induction ss generalizing pos with
  | nil => exact .isTrue trivial
  | cons s rest ih =>
    have := ih ((pos + 1) % len)
    unfold sliceIndicesOk
    infer_instance

/-- In-bounds condition for the raw array indexing performed by one buffer
operation in state `b` (`inner.samples[pos] = sample` in `push` and in each
`push_slice` loop iteration; `clear` only iterates, never indexes). -/
def BufferInner.opIndicesOk (b : BufferInner) : BufOp → Prop
  | .push _ => b.writePos < b.samples.length
  | .pushSlice ss => sliceIndicesOk b.samples.length b.writePos ss
  | .clear => True

instance (b : BufferInner) (op : BufOp) : Decidable (b.opIndicesOk op) := by
  cases op <;> (unfold BufferInner.opIndicesOk; infer_instance)

/-- Every array write along a whole operation sequence is in bounds. -/
def BufferInner.opsIndicesOk (b : BufferInner) : List BufOp → Prop
  | [] => True
  | op :: rest => b.opIndicesOk op ∧ (b.applyOp op).opsIndicesOk rest

instance (b : BufferInner) (ops : List BufOp) : Decidable (b.opsIndicesOk ops) := by
  induction ops generalizing b with
  | nil => exact .isTrue trivial
  | cons op rest ih =>
    have := ih (b.applyOp op)
    unfold BufferInner.opsIndicesOk
    infer_instance

/-! ### Ring-buffer lemmas -/

lemma getD_set_same (l : List XYSample) (i : ℕ) (a d : XYSample) (h : i < l.length) :
    (l.set i a).getD i d = a := by
  simp [List.getD_eq_getElem?_getD, List.getElem?_set_eq_of_lt a h]

lemma getD_set_other (l : List XYSample) {i j : ℕ} (a d : XYSample) (hij : i ≠ j) :
    (l.set i a).getD j d = l.getD j d := by
  simp [List.getD_eq_getElem?_getD, List.getElem?_set_ne hij]

lemma add_mod_ne_self {L p m : ℕ} (hp : p < L) (hm0 : 0 < m) (hmL : m < L) :
    (p + m) % L ≠ p := by
  intro h
  have hmod : (p + m) % L = p % L := by rw [h, Nat.mod_eq_of_lt hp]
  have h2 : m % L = 0 % L := Nat.ModEq.add_left_cancel' p hmod
  rw [Nat.mod_eq_of_lt hmL, Nat.zero_mod] at h2
  omega

@[simp] lemma length_push (b : BufferInner) (s : XYSample) :
    (b.push s).samples.length = b.samples.length := by
  simp [BufferInner.push]

lemma inv_push (b : BufferInner) (s : XYSample) (h : b.inv) : (b.push s).inv := by
  unfold BufferInner.inv at *
  simp only [BufferInner.push, List.length_set]
  exact Nat.mod_lt _ (Nat.lt_of_le_of_lt (Nat.zero_le _) h)

lemma pushSliceLoop_length (len : ℕ) (ss : List XYSample) :
    ∀ (samples : List XYSample) (pos : ℕ),
      (pushSliceLoop len samples ss pos).1.length = samples.length := by
  induction ss with
  | nil => intro samples pos; rfl
  | cons s rest ih =>
    intro samples pos
    rw [pushSliceLoop, ih]
    simp

lemma pushSliceLoop_pos_lt (len : ℕ) (hlen : 0 < len) (ss : List XYSample) :
    ∀ (samples : List XYSample) (pos : ℕ), pos < len →
      (pushSliceLoop len samples ss pos).2 < len := by
  induction ss with
  | nil => intro samples pos h; exact h
  | cons s rest ih =>
    intro samples pos _
    rw [pushSliceLoop]
    exact ih _ _ (Nat.mod_lt _ hlen)

lemma inv_applyOp (b : BufferInner) (op : BufOp) (h : b.inv) : (b.applyOp op).inv := by
  have hlen : 0 < b.samples.length := Nat.lt_of_le_of_lt (Nat.zero_le _) h
  cases op with
  | push s => exact inv_push b s h
  | pushSlice ss =>
    unfold BufferInner.inv
    show (pushSliceLoop b.samples.length b.samples ss b.writePos).2 <
      (pushSliceLoop b.samples.length b.samples ss b.writePos).1.length
    rw [pushSliceLoop_length]
    exact pushSliceLoop_pos_lt _ hlen _ _ _ h
  | clear =>
    unfold BufferInner.inv
    simpa [BufferInner.applyOp, BufferInner.clear] using hlen

lemma length_applyOp (b : BufferInner) (op : BufOp) :
    (b.applyOp op).samples.length = b.samples.length := by
  cases op with
  | push s => simp [BufferInner.applyOp]
  | pushSlice ss =>
    show (pushSliceLoop b.samples.length b.samples ss b.writePos).1.length = _
    rw [pushSliceLoop_length]
  | clear => simp [BufferInner.applyOp, BufferInner.clear]

lemma sliceIndicesOk_of_lt (len : ℕ) (hlen : 0 < len) (ss : List XYSample) :
    ∀ pos : ℕ, pos < len → sliceIndicesOk len pos ss := by
  induction ss with
  | nil => intro pos _; trivial
  | cons s rest ih =>
    intro pos hp
    exact ⟨hp, ih _ (Nat.mod_lt _ hlen)⟩

lemma opIndicesOk_of_inv (b : BufferInner) (op : BufOp) (h : b.inv) : b.opIndicesOk op := by
  have hlen : 0 < b.samples.length := Nat.lt_of_le_of_lt (Nat.zero_le _) h
  cases op with
  | push s => exact h
  | pushSlice ss => exact sliceIndicesOk_of_lt _ hlen ss _ h
  | clear => trivial

lemma opsIndicesOk_of_inv (ops : List BufOp) :
    ∀ b : BufferInner, b.inv →
      b.opsIndicesOk ops ∧ (b.applyOps ops).inv ∧
      (b.applyOps ops).samples.length = b.samples.length := by
  induction ops with
  | nil => intro b h; exact ⟨trivial, h, rfl⟩
  | cons op rest ih =>
    intro b h
    obtain ⟨h1, h2, h3⟩ := ih (b.applyOp op) (inv_applyOp b op h)
    exact ⟨⟨opIndicesOk_of_inv b op h, h1⟩, h2, h3.trans (length_applyOp b op)⟩

@[simp] lemma getSamples_length (b : BufferInner) :
    b.getSamples.length = b.samples.length := by
  simp [BufferInner.getSamples]

lemma getSamples_push (b : BufferInner) (s : XYSample) (h : b.inv) :
    (b.push s).getSamples = b.getSamples.drop 1 ++ [s] := by
  have hL : 0 < b.samples.length := Nat.lt_of_le_of_lt (Nat.zero_le _) h
  set L := b.samples.length with hLdef
  set p := b.writePos with hpdef
  apply List.ext_getElem
  · simp [BufferInner.getSamples, BufferInner.push]
    omega
  intro j hj1 hj2
  have hjL : j < L := by
    simpa [BufferInner.getSamples, BufferInner.push] using hj1
  have hmapL : ∀ (c : BufferInner) (i : ℕ) (hi : i < c.samples.length)
      (hh : i < c.getSamples.length),
      c.getSamples[i] = c.samples.getD ((c.writePos + i) % c.samples.length) XYSample.zero := by
    intro c i hi hh
    simp [BufferInner.getSamples]
  rcases Nat.lt_or_ge j (L - 1) with hcase | hcase
  · -- middle elements: the slot written by the push is not read here
    have hlhs : (b.push s).getSamples[j] =
        (b.samples.set p s).getD (((p + 1) % L + j) % L) XYSample.zero := by
      have := hmapL (b.push s) j (by simpa [BufferInner.push] using hjL) hj1
      simpa [BufferInner.push] using this
    have hmodeq : ((p + 1) % L + j) % L = (p + (j + 1)) % L := by
      rw [Nat.mod_add_mod]
      congr 1
      omega
    have hne : (p + (j + 1)) % L ≠ p :=
      add_mod_ne_self h (Nat.succ_pos j) (by omega)
    have hrhs : (b.getSamples.drop 1 ++ [s])[j] =
        b.samples.getD ((p + (j + 1)) % L) XYSample.zero := by
      rw [List.getElem_append_left (by simp [BufferInner.getSamples]; omega)]
      rw [List.getElem_drop]
      have := hmapL b (1 + j) (by omega) (by simp; omega)
      rw [this]
      ring_nf
    rw [hlhs, hrhs, hmodeq, getD_set_other _ _ _ (Ne.symm hne)]
  · -- last element: reads exactly the freshly written slot
    have hjeq : j = L - 1 := by omega
    have hlhs : (b.push s).getSamples[j] =
        (b.samples.set p s).getD (((p + 1) % L + j) % L) XYSample.zero := by
      have := hmapL (b.push s) j (by simpa [BufferInner.push] using hjL) hj1
      simpa [BufferInner.push] using this
    have hidx : ((p + 1) % L + j) % L = p := by
      rw [Nat.mod_add_mod, hjeq]
      have : p + 1 + (L - 1) = p + L := by omega
      rw [this, Nat.add_mod_right, Nat.mod_eq_of_lt h]
    have hrhs : (b.getSamples.drop 1 ++ [s])[j] = s := by
      rw [List.getElem_append_right (by simp [BufferInner.getSamples]; omega)]
      simp [BufferInner.getSamples]
    rw [hlhs, hrhs, hidx, getD_set_same _ _ _ _ h]

lemma getSamples_pushList (ps : List XYSample) :
    ∀ b : BufferInner, b.inv →
      (b.pushList ps).getSamples = (b.getSamples ++ ps).drop ps.length := by
  induction ps with
  | nil => intro b _; simp [BufferInner.pushList]
  | cons s rest ih =>
    intro b h
    have hQ : 1 ≤ b.getSamples.length := by
      simp only [getSamples_length]
      exact Nat.lt_of_le_of_lt (Nat.zero_le _) h
    show ((b.push s).pushList rest).getSamples = _
    rw [ih (b.push s) (inv_push b s h), getSamples_push b s h]
    have h1 : (b.getSamples.drop 1 ++ [s]) ++ rest = (b.getSamples ++ s :: rest).drop 1 := by
      rw [List.drop_append_of_le_length hQ]
      simp
    rw [h1, List.drop_drop]
    congr 1
    simp [List.length_cons]
    omega

lemma pushList_samplesWritten (ps : List XYSample) :
    ∀ b : BufferInner, (b.pushList ps).samplesWritten = b.samplesWritten + ps.length := by
  induction ps with
  | nil => intro b; simp [BufferInner.pushList]
  | cons s rest ih =>
    intro b
    show ((b.push s).pushList rest).samplesWritten = _
    rw [ih]
    simp [BufferInner.push]
    omega

lemma inv_new {C : ℕ} (hC : 0 < C) : (SampleBuffer.new C).inv := by
  unfold BufferInner.inv SampleBuffer.new
  simpa using hC

lemma inv_pushList (ps : List XYSample) :
    ∀ b : BufferInner, b.inv → (b.pushList ps).inv := by
  induction ps with
  | nil => intro b h; exact h
  | cons s rest ih => intro b h; exact ih _ (inv_push b s h)

/-- Claim C4: for a fresh ring buffer of capacity `C ≥ 1`, pushing `C + k`
samples (`k > 0`, every push succeeding) and then reading with `get_samples`
returns exactly the last `C` pushed samples, oldest-to-newest (the read starts
at the current write cursor and wraps). -/
theorem ringBuffer_wrap_law (C k : ℕ) (ps : List XYSample)
    (hC : 0 < C) (hk : 0 < k) (hlen : ps.length = C + k) :
    ((SampleBuffer.new C).pushList ps).getSamples = ps.drop k := by
  rw [getSamples_pushList ps (SampleBuffer.new C) (inv_new hC)]
  have hQ : (SampleBuffer.new C).getSamples.length = C := by
    simp [SampleBuffer.new]
  calc ((SampleBuffer.new C).getSamples ++ ps).drop ps.length
      = ((SampleBuffer.new C).getSamples ++ ps).drop
          ((SampleBuffer.new C).getSamples.length + k) := by rw [hQ, hlen]
    _ = ps.drop k := List.drop_append k

/-- Witness for C4 at a concrete input: capacity 2, three pushes. -/
theorem ringBuffer_wrap_law_witness :
    ((SampleBuffer.new 2).pushList [⟨1, 1⟩, ⟨2, 2⟩, ⟨3, 3⟩]).getSamples =
      [⟨2, 2⟩, ⟨3, 3⟩] :=
  (ringBuffer_wrap_law 2 1 [⟨1, 1⟩, ⟨2, 2⟩, ⟨3, 3⟩]
    (by decide) (by decide) (by decide)).trans (by decide)

/-- Claim C9 (amended: capacity at least 1): starting from a freshly
constructed buffer of capacity `C ≥ 1`, along every sequence of `push`,
`push_slice` and `clear` operations every raw array write is in bounds, the
write cursor stays in `[0, C)`, and the storage length stays `C`. -/
theorem ringBuffer_cursor_in_range (C : ℕ) (ops : List BufOp) (hC : 0 < C) :
    (SampleBuffer.new C).opsIndicesOk ops ∧
    ((SampleBuffer.new C).applyOps ops).inv ∧
    ((SampleBuffer.new C).applyOps ops).samples.length = C := by
  have h := opsIndicesOk_of_inv ops (SampleBuffer.new C) (inv_new hC)
  refine ⟨h.1, h.2.1, h.2.2.trans ?_⟩
  simp [SampleBuffer.new]

/-- Witness for C9 at a concrete input: capacity 2 and a sequence using all
three operations. -/
theorem ringBuffer_cursor_in_range_witness :
    (SampleBuffer.new 2).opsIndicesOk
        [BufOp.push ⟨1, 1⟩, BufOp.pushSlice [⟨2, 2⟩, ⟨3, 3⟩, ⟨4, 4⟩], BufOp.clear,
          BufOp.push ⟨5, 5⟩] ∧
      ((SampleBuffer.new 2).applyOps
        [BufOp.push ⟨1, 1⟩, BufOp.pushSlice [⟨2, 2⟩, ⟨3, 3⟩, ⟨4, 4⟩], BufOp.clear,
          BufOp.push ⟨5, 5⟩]).inv ∧
      ((SampleBuffer.new 2).applyOps
        [BufOp.push ⟨1, 1⟩, BufOp.pushSlice [⟨2, 2⟩, ⟨3, 3⟩, ⟨4, 4⟩], BufOp.clear,
          BufOp.push ⟨5, 5⟩]).samples.length = 2 :=
  ringBuffer_cursor_in_range 2
    [BufOp.push ⟨1, 1⟩, BufOp.pushSlice [⟨2, 2⟩, ⟨3, 3⟩, ⟨4, 4⟩], BufOp.clear,
      BufOp.push ⟨5, 5⟩] (by decide)

/-- Counterexample to C9 as stated (quantifying over every `SampleBuffer`,
including capacity 0): for `SampleBuffer::new(0)` the write cursor 0 does not
lie in the empty range `[0, 0)`, and the very first `push` indexes out of
bounds (`inner.samples[0]` on an empty vector panics in Rust). -/
theorem ringBuffer_cursor_capacity_zero_counterexample :
    ¬ (SampleBuffer.new 0).inv ∧
      ¬ (SampleBuffer.new 0).opIndicesOk (BufOp.push XYSample.zero) := by
  decide

/-- Claim C10: `clear` (on lock-success) zeroes every stored sample and resets
the write cursor to 0, but leaves the total-written counter equal to the
cumulative number of samples pushed since construction. -/
theorem clear_keeps_samples_written (C : ℕ) (ps : List XYSample) (hC : 0 < C) :
    (∀ s ∈ (((SampleBuffer.new C).pushList ps).clear).samples, s = XYSample.zero) ∧
    (((SampleBuffer.new C).pushList ps).clear).writePos = 0 ∧
    (((SampleBuffer.new C).pushList ps).clear).samplesWrittenVal = ps.length ∧
    (((SampleBuffer.new C).pushList ps).clear).samplesWrittenVal =
      ((SampleBuffer.new C).pushList ps).samplesWrittenVal := by
  refine ⟨?_, rfl, ?_, rfl⟩
  · intro s hs
    simp [BufferInner.clear] at hs
    exact hs.2
  · show (((SampleBuffer.new C).pushList ps)).samplesWritten = ps.length
    rw [pushList_samplesWritten]
    simp [SampleBuffer.new]

/-- Witness for C10 at a concrete input. -/
theorem clear_keeps_samples_written_witness :
    (∀ s ∈ (((SampleBuffer.new 2).pushList [⟨1, 1⟩, ⟨2, 2⟩, ⟨3, 3⟩]).clear).samples,
        s = XYSample.zero) ∧
      (((SampleBuffer.new 2).pushList [⟨1, 1⟩, ⟨2, 2⟩, ⟨3, 3⟩]).clear).writePos = 0 ∧
      (((SampleBuffer.new 2).pushList [⟨1, 1⟩, ⟨2, 2⟩, ⟨3, 3⟩]).clear).samplesWrittenVal = 3 ∧
      (((SampleBuffer.new 2).pushList [⟨1, 1⟩, ⟨2, 2⟩, ⟨3, 3⟩]).clear).samplesWrittenVal =
        ((SampleBuffer.new 2).pushList [⟨1, 1⟩, ⟨2, 2⟩, ⟨3, 3⟩]).samplesWrittenVal :=
  clear_keeps_samples_written 2 [⟨1, 1⟩, ⟨2, 2⟩, ⟨3, 3⟩] (by decide)

/-! ## Effects (src/effects/traits.rs, src/effects/transform.rs, src/effects/lfo.rs)

`f32` arithmetic is modelled over `ℚ`; the transcendental functions `sin`/`cos`
and the `f32` constant `TAU` are abstract parameters collected in `TrigModel`,
so nothing is assumed about them beyond explicitly stated hypotheses.
-/

/-- Abstract model of the `f32` transcendental operations and the `TAU`
constant used by the code. -/
structure TrigModel where
  sin : ℚ → ℚ
  cos : ℚ → ℚ
  tau : ℚ

/-- A concrete instantiation of `TrigModel` for witnesses and
counterexamples.  Its only relevant property is `cos 0 = 1` and `sin 0 = 0`,
which the real `f32` functions satisfy exactly. -/
def tmConst : TrigModel := ⟨fun _ => 0, fun _ => 1, 710 / 113⟩

/-- Rust `f32::trunc` on the rational model: rounding toward zero. -/
def f32trunc (q : ℚ) : ℚ := if 0 ≤ q then (⌊q⌋ : ℚ) else (⌈q⌉ : ℚ)

/-- Rust `f32::fract`: `self - self.trunc()`. -/
def f32fract (q : ℚ) : ℚ := q - f32trunc q

/-- The Rust saturating cast `as usize` applied to a (finite, rational-valued)
`f32`: truncation toward zero, negative values clamped to 0. -/
def f32AsUsize (q : ℚ) : ℕ := if q ≤ 0 then 0 else (⌊q⌋).toNat

/-- `LfoWaveform` in src/effects/lfo.rs. -/
inductive LfoWaveform where
  | sine
  | triangle
  | square
  | sawtooth
  | reverseSawtooth
deriving DecidableEq

/-- `LfoWaveform::sample(phase)` in src/effects/lfo.rs. -/
def LfoWaveform.sampleAt (tm : TrigModel) : LfoWaveform → ℚ → ℚ
  | .sine, phase => tm.sin (phase * tm.tau)
  | .triangle, phase =>
      let p := phase * 4
      if p < 1 then p else if p < 3 then 2 - p else p - 4
  | .square, phase => if phase < (1 : ℚ) / 2 then 1 else -1
  | .sawtooth, phase => 2 * phase - 1
  | .reverseSawtooth, phase => 1 - 2 * phase

/-- `Lfo` in src/effects/lfo.rs. -/
structure Lfo where
  frequency : ℚ
  waveform : LfoWaveform
  min : ℚ
  max : ℚ
  phaseOffset : ℚ
  enabled : Bool

/-- `Lfo::with_range` in src/effects/lfo.rs. -/
def Lfo.withRange (frequency min max : ℚ) : Lfo :=
  ⟨frequency, LfoWaveform.sine, min, max, 0, true⟩

/-- `Lfo::sample(time)` in src/effects/lfo.rs: disabled returns the centre of
the range; otherwise the waveform is sampled at
`phase = fract(time·frequency + phaseOffset)` (shifted into `[0,1)`) and the
raw `[-1,1]` value is mapped affinely onto `[min, max]`. -/
def Lfo.sample (tm : TrigModel) (l : Lfo) (time : ℚ) : ℚ :=
  if ¬ l.enabled then (l.min + l.max) / 2
  else
    let phase0 := f32fract (time * l.frequency + l.phaseOffset)
    let phase := if phase0 < 0 then phase0 + 1 else phase0
    let raw := l.waveform.sampleAt tm phase
    let normalized := (raw + 1) / 2
    l.min + normalized * (l.max - l.min)

/-- Claim C6 (amended): a disabled LFO, or one whose range is degenerate
(`min = max`), returns the configured midpoint `(min + max) / 2` for every
waveform, frequency and time.  (A zero frequency alone does not force the
midpoint: the waveform is then sampled at the constant phase
`fract(phaseOffset)`, which yields the midpoint for the sine waveform with
zero phase offset but not, e.g., for the square waveform.) -/
theorem lfo_degenerate_returns_midpoint (tm : TrigModel) (l : Lfo) (time : ℚ) :
    (l.min = l.max → l.sample tm time = (l.min + l.max) / 2) ∧
    (l.enabled = false → l.sample tm time = (l.min + l.max) / 2) := by
  constructor
  · intro hminmax
    unfold Lfo.sample
    by_cases he : l.enabled
    · simp only [he, not_true_eq_false, if_neg, ite_false]
      rw [hminmax]
      ring
    · simp [he]
  · intro he
    unfold Lfo.sample
    simp [he]

/-- Witness for C6 (amended) at a concrete input: a degenerate-range square
LFO at frequency 5 sampled at time 7/2. -/
theorem lfo_degenerate_returns_midpoint_witness :
    Lfo.sample tmConst ⟨5, LfoWaveform.square, 3, 3, 0, true⟩ (7 / 2) = 3 :=
  ((lfo_degenerate_returns_midpoint tmConst
    ⟨5, LfoWaveform.square, 3, 3, 0, true⟩ (7 / 2)).1 rfl).trans (by norm_num)

/-- Counterexample to C6 as stated: the zero-frequency square-wave LFO with
range `[-1, 1]` (midpoint 0) returns 1, not the midpoint — `Lfo::sample` has
no degenerate-frequency special case, it just samples the waveform at the
constant phase 0. -/
theorem lfo_zero_frequency_counterexample :
    Lfo.sample tmConst ⟨0, LfoWaveform.square, -1, 1, 0, true⟩ 0 ≠
      ((-1 : ℚ) + 1) / 2 := by
  norm_num [Lfo.sample, f32fract, f32trunc, LfoWaveform.sampleAt]

/-! ## Effect chain and the render callback (src/effects/traits.rs,
src/audio/engine.rs) -/

/-- One effect as seen through the boxed `Effect` trait object in
src/effects/traits.rs: its `apply` function together with its `is_enabled`
flag. -/
structure EffectObj where
  applyFn : ℚ → ℚ → ℚ → ℚ × ℚ
  enabled : Bool

/-- `EffectChain`: the ordered list of boxed effects. -/
def EffectChain := List EffectObj

/-- `EffectChain::apply`: fold the enabled effects over the point in
registration order; disabled effects are skipped, not removed. -/
def EffectChain.apply (c : EffectChain) (x y time : ℚ) : ℚ × ℚ :=
  c.foldl (fun r e => if e.enabled then e.applyFn r.1 r.2 time else r) (x, y)

/-- `Rotate` in src/effects/transform.rs: standard 2D rotation by
`angle + speed * time`. -/
def Rotate.effect (tm : TrigModel) (angle speed : ℚ) : EffectObj :=
  ⟨fun x y time =>
    let totalAngle := angle + speed * time
    let cosA := tm.cos totalAngle
    let sinA := tm.sin totalAngle
    (x * cosA - y * sinA, x * sinA + y * cosA), true⟩

/-- `Rotate::animated(speed)`: base angle 0, enabled. -/
def Rotate.animated (tm : TrigModel) (speed : ℚ) : EffectObj :=
  Rotate.effect tm 0 speed

/-- `LfoScale` in src/effects/lfo.rs, built as in
`LfoScale::new(freq, min, max).waveform(w)`; its `apply` multiplies both
coordinates by the LFO value (the `base_scale` field is unused by `apply`). -/
def LfoScale.effect (tm : TrigModel) (freq minScale maxScale : ℚ)
    (w : LfoWaveform) : EffectObj :=
  ⟨fun x y time =>
    let s := Lfo.sample tm { Lfo.withRange freq minScale maxScale with waveform := w } time
    (x * s, y * s), true⟩

/-- `EffectParams` in src/audio/engine.rs. -/
structure EffectParams where
  rotationSpeed : ℚ
  rotationEnabled : Bool
  scaleLfoFreq : ℚ
  scaleLfoMin : ℚ
  scaleLfoMax : ℚ
  scaleLfoEnabled : Bool
  scaleLfoWaveform : LfoWaveform

/-- `EffectParams::default()`. -/
def EffectParams.defaults : EffectParams :=
  ⟨0, false, 1, 4 / 5, 6 / 5, false, LfoWaveform.sine⟩

/-- `EffectParams::build_chain`: a `Rotate::animated` when rotation is enabled
with non-zero speed, then an `LfoScale` when the scale LFO is enabled. -/
def EffectParams.buildChain (tm : TrigModel) (p : EffectParams) : EffectChain :=
  (if p.rotationEnabled = true ∧ p.rotationSpeed ≠ 0
    then [Rotate.animated tm p.rotationSpeed] else []) ++
  (if p.scaleLfoEnabled = true
    then [LfoScale.effect tm p.scaleLfoFreq p.scaleLfoMin p.scaleLfoMax p.scaleLfoWaveform]
    else [])

/-- The constant `VIZ_DECIMATION = 8` in src/audio/engine.rs. -/
def VIZ_DECIMATION : ℕ := 8

/-- The post-effect point of frame `k` of a callback: the pre-sampled point at
index `(startIdx + k) mod N` pushed through the chain at time
`(startTotal + k) / sampleRate`. -/
def postEffectAt (shape : List XYSample) (chain : EffectChain)
    (startIdx startTotal : ℕ) (sampleRate : ℚ) (k : ℕ) : ℚ × ℚ :=
  let xy := shape.getD ((startIdx + k) % shape.length) XYSample.zero
  chain.apply xy.x xy.y (((startTotal + k : ℕ) : ℚ) / sampleRate)

/-- One output frame as written by the loop body of `write_audio_samples`:
`left = x`, `right = y` and equilibrium on the extra channels when
`channels ≥ 2`; the mono mix `(x + y) / 2` when there is one channel. -/
def renderFrame {T : Type} (fromSample : ℚ → T) (equil : T) (channels : ℕ)
    (e : ℚ × ℚ) : List T :=
  if 2 ≤ channels then
    fromSample e.1 :: fromSample e.2 :: List.replicate (channels - 2) equil
  else
    [fromSample ((e.1 + e.2) / 2)]

/-- The per-frame loop of `write_audio_samples`: processes `n` frames starting
at loop counter `frameNum`, returning the written frames together with the
list of `(frame number, post-effect point)` pairs handed to
`SampleBuffer::push` for visualization (the callback tolerates those pushes
being dropped under contention). -/
def writeFrames {T : Type} (fromSample : ℚ → T) (equil : T) (channels : ℕ)
    (shape : List XYSample) (chain : EffectChain) (startIdx startTotal : ℕ)
    (sampleRate : ℚ) : ℕ → ℕ → List (List T) × List (ℕ × XYSample)
  | _, 0 => ([], [])
  | frameNum, n + 1 =>
    let e := postEffectAt shape chain startIdx startTotal sampleRate frameNum
    let frame := renderFrame fromSample equil channels e
    let rest := writeFrames fromSample equil channels shape chain startIdx startTotal
      sampleRate (frameNum + 1) n
    (frame :: rest.1,
      if (startIdx + frameNum) % VIZ_DECIMATION = 0 then (frameNum, ⟨e.1, e.2⟩) :: rest.2
      else rest.2)

/-- Result of one invocation of `write_audio_samples`: the written output
buffer (as frames), the stored `SampleIndex`, the stored
`TotalSampleCounter`, and the visualization push attempts. -/
structure RenderResult (T : Type) where
  data : List (List T)
  sampleIndex : ℕ
  totalSamples : ℕ
  pushes : List (ℕ × XYSample)
deriving DecidableEq

/-- `write_audio_samples` in src/audio/engine.rs.  The output slice is
represented as `numFrames` frames of `channels` elements each (cpal hands the
callback a buffer whose length is a multiple of the channel count).
`isPlaying` is the loaded `AtomicBool`; `shapeReadOk` models
`shape_data.try_read()` succeeding; `effectReadOk` models
`effect_params.try_read()` succeeding (on failure the callback uses an empty
chain).  The three silence guards are checked in the code's order; each writes
equilibrium to the whole buffer and returns without touching any state. -/
def writeAudioSamples {T : Type} (fromSample : ℚ → T) (equil : T)
    (tm : TrigModel) (numFrames channels : ℕ)
    (isPlaying shapeReadOk : Bool) (shape : List XYSample)
    (effectReadOk : Bool) (params : EffectParams)
    (sampleIndex totalSamples : ℕ) (sampleRate : ℚ) : RenderResult T :=
  if isPlaying = false ∨ shapeReadOk = false ∨ shape = [] then
    ⟨List.replicate numFrames (List.replicate channels equil), sampleIndex, totalSamples, []⟩
  else
    ⟨(writeFrames fromSample equil channels shape
        (if effectReadOk then params.buildChain tm else []) sampleIndex totalSamples
        sampleRate 0 numFrames).1,
      (sampleIndex + numFrames) % shape.length,
      totalSamples + numFrames,
      (writeFrames fromSample equil channels shape
        (if effectReadOk then params.buildChain tm else []) sampleIndex totalSamples
        sampleRate 0 numFrames).2⟩

/-! ### Closed forms of the render loop -/

lemma writeFrames_data {T : Type} (fromSample : ℚ → T) (equil : T) (channels : ℕ)
    (shape : List XYSample) (chain : EffectChain) (startIdx startTotal : ℕ)
    (sampleRate : ℚ) (n : ℕ) :
    ∀ f : ℕ,
      (writeFrames fromSample equil channels shape chain startIdx startTotal
        sampleRate f n).1 =
      (List.range n).map (fun j =>
        renderFrame fromSample equil channels
          (postEffectAt shape chain startIdx startTotal sampleRate (f + j))) := by
  induction n with
  | zero => intro f; rfl
  | succ n ih =>
    intro f
    rw [writeFrames, List.range_succ_eq_map]
    simp only [List.map_cons, List.map_map, ih (f + 1)]
    congr 1
    apply List.map_congr_left
    intro j _
    simp only [Function.comp]
    congr 2
    omega

lemma writeFrames_pushes {T : Type} (fromSample : ℚ → T) (equil : T) (channels : ℕ)
    (shape : List XYSample) (chain : EffectChain) (startIdx startTotal : ℕ)
    (sampleRate : ℚ) (n : ℕ) :
    ∀ f : ℕ,
      (writeFrames fromSample equil channels shape chain startIdx startTotal
        sampleRate f n).2 =
      (List.range n).filterMap (fun j =>
        if (startIdx + (f + j)) % VIZ_DECIMATION = 0 then
          some (f + j,
            ⟨(postEffectAt shape chain startIdx startTotal sampleRate (f + j)).1,
             (postEffectAt shape chain startIdx startTotal sampleRate (f + j)).2⟩)
        else none) := by
  induction n with
  | zero => intro f; rfl
  | succ n ih =>
    intro f
    rw [writeFrames, List.range_succ_eq_map, List.filterMap_cons]
    simp only [List.filterMap_map, ih (f + 1)]
    have harg : ∀ j : ℕ, f + 1 + j = f + (j + 1) := by omega
    by_cases hc : (startIdx + (f + 0)) % VIZ_DECIMATION = 0
    · rw [if_pos (by simpa using hc), if_pos hc]
      simp only [Nat.add_zero]
      congr 1
      apply List.filterMap_congr
      intro j _
      simp only [Function.comp, harg j]
    · rw [if_neg (by simpa using hc), if_neg hc]
      apply List.filterMap_congr
      intro j _
      simp only [Function.comp, harg j]

/-- Claim C2: whenever the render callback runs with playback disabled, or
the pre-sampled-shape lock cannot be acquired without blocking, or the
pre-sampled array is empty, it writes the equilibrium (silence) value to
every element of the output buffer and returns, leaving `SampleIndex`,
`TotalSampleCounter` and the visualization ring buffer unchanged (no push
attempt is made). -/
theorem renderCallback_silence {T : Type} (fromSample : ℚ → T) (equil : T)
    (tm : TrigModel) (numFrames channels : ℕ)
    (isPlaying shapeReadOk : Bool) (shape : List XYSample)
    (effectReadOk : Bool) (params : EffectParams)
    (sampleIndex totalSamples : ℕ) (sampleRate : ℚ)
    (h : isPlaying = false ∨ shapeReadOk = false ∨ shape = []) :
    writeAudioSamples fromSample equil tm numFrames channels isPlaying shapeReadOk
        shape effectReadOk params sampleIndex totalSamples sampleRate =
      ⟨List.replicate numFrames (List.replicate channels equil),
        sampleIndex, totalSamples, []⟩ := by
  unfold writeAudioSamples
  rw [if_pos h]

/-- Witness for C2 at a concrete input: playback disabled with a non-empty
shape and non-zero counters. -/
theorem renderCallback_silence_witness :
    writeAudioSamples (id : ℚ → ℚ) 0 tmConst 3 2 false true [⟨1, 1⟩] true
        EffectParams.defaults 5 7 48000 =
      ⟨[[0, 0], [0, 0], [0, 0]], 5, 7, []⟩ :=
  (renderCallback_silence (id : ℚ → ℚ) 0 tmConst 3 2 false true [⟨1, 1⟩] true
    EffectParams.defaults 5 7 48000 (Or.inl rfl)).trans (by decide)

/-- Claim C5 (amended): during rendering, the callback attempts a
visualization push exactly on the frames whose position along the shape-walk
— the callback-start `SampleIndex` plus the frame offset, before wrapping —
is a multiple of `VIZ_DECIMATION = 8`; the pushed value is the post-effect
point.  (This coincides with the stream's output-frame count being a multiple
of 8 only while `SampleIndex` and `TotalSampleCounter` agree modulo 8.) -/
theorem viz_push_on_shape_walk_multiples {T : Type} (fromSample : ℚ → T) (equil : T)
    (tm : TrigModel) (numFrames channels : ℕ) (shape : List XYSample)
    (effectReadOk : Bool) (params : EffectParams)
    (sampleIndex totalSamples : ℕ) (sampleRate : ℚ) (chain : EffectChain)
    (hne : shape ≠ [])
    (hchain : chain = if effectReadOk then params.buildChain tm else []) :
    ∀ (k : ℕ) (p : XYSample),
      (k, p) ∈ (writeAudioSamples fromSample equil tm numFrames channels true true
          shape effectReadOk params sampleIndex totalSamples sampleRate).pushes ↔
        (k < numFrames ∧ (sampleIndex + k) % VIZ_DECIMATION = 0 ∧
          p = ⟨(postEffectAt shape chain sampleIndex totalSamples sampleRate k).1,
               (postEffectAt shape chain sampleIndex totalSamples sampleRate k).2⟩) := by
  intro k p
  unfold writeAudioSamples
  rw [if_neg (by simp [hne])]
  show (k, p) ∈ (writeFrames fromSample equil channels shape
      (if effectReadOk then params.buildChain tm else []) sampleIndex totalSamples
      sampleRate 0 numFrames).2 ↔ _
  rw [← hchain, writeFrames_pushes]
  simp only [List.mem_filterMap, List.mem_range, Nat.zero_add]
  constructor
  · rintro ⟨j, hj, hg⟩
    by_cases hc : (sampleIndex + j) % VIZ_DECIMATION = 0
    · rw [if_pos hc] at hg
      obtain ⟨hjk, hpp⟩ := Prod.mk.injEq .. ▸ Option.some.inj hg
      subst hjk
      exact ⟨hj, hc, hpp.symm⟩
    · rw [if_neg hc] at hg
      exact absurd hg (Option.noConfusion)
  · rintro ⟨hk, hcond, hp⟩
    refine ⟨k, hk, ?_⟩
    rw [if_pos hcond, hp]

/-- Witness for C5 (amended) at a concrete input: single-point shape, one
frame, fresh counters; the push at frame 0 carries the post-effect point. -/
theorem viz_push_on_shape_walk_multiples_witness :
    (0, (⟨1, 2⟩ : XYSample)) ∈ (writeAudioSamples (id : ℚ → ℚ) 0 tmConst 1 2 true true
        [⟨1, 2⟩] true EffectParams.defaults 0 0 48000).pushes :=
  (viz_push_on_shape_walk_multiples (id : ℚ → ℚ) 0 tmConst 1 2 [⟨1, 2⟩] true
    EffectParams.defaults 0 0 48000 [] (by decide)
    (by simp [EffectParams.buildChain, EffectParams.defaults]) 0 ⟨1, 2⟩).mpr
    ⟨by decide, by decide, by decide⟩

/-- Counterexample to C5 as stated: with a 10-point shape, after a first
callback of 14 frames (`SampleIndex` wraps to 4, `TotalSampleCounter` 14), the
second callback (5 frames) pushes exactly at its frame 4 — whose position in
the stream's output frame count is 18, not a multiple of 8 (nor is its
callback-local index 4). -/
theorem viz_push_stream_count_counterexample :
    ((writeAudioSamples (id : ℚ → ℚ) 0 tmConst 5 2 true true
        (List.replicate 10 ⟨1, 1⟩) true EffectParams.defaults
        (writeAudioSamples (id : ℚ → ℚ) 0 tmConst 14 2 true true
          (List.replicate 10 ⟨1, 1⟩) true EffectParams.defaults 0 0 48000).sampleIndex
        (writeAudioSamples (id : ℚ → ℚ) 0 tmConst 14 2 true true
          (List.replicate 10 ⟨1, 1⟩) true EffectParams.defaults 0 0 48000).totalSamples
        48000).pushes.map Prod.fst = [4]) ∧
    ((writeAudioSamples (id : ℚ → ℚ) 0 tmConst 14 2 true true
        (List.replicate 10 ⟨1, 1⟩) true EffectParams.defaults 0 0 48000).totalSamples + 4)
        % VIZ_DECIMATION ≠ 0 ∧
    4 % VIZ_DECIMATION ≠ 0 := by
  refine ⟨?_, by decide, by decide⟩
  decide

/-! ## Pre-sampler (src/audio/engine.rs, `AudioEngine::set_shape`) and the
circle primitive (src/shapes/primitives.rs) -/

/-- `Circle::sample(t)` in src/shapes/primitives.rs:
`(cx + radius·cos(t·TAU), cy + radius·sin(t·TAU))`.  `Circle::new(radius)`
has `cx = cy = 0`. -/
def Circle.sample (tm : TrigModel) (cx cy radius : ℚ) (t : ℚ) : ℚ × ℚ :=
  let angle := t * tm.tau
  (cx + radius * tm.cos angle, cy + radius * tm.sin angle)

/-- The outcome of `AudioEngine::set_shape`: the published pre-sampled array,
the `samples_per_shape` count and the reset `SampleIndex`. -/
structure SetShapeResult where
  samples : List XYSample
  samplesPerShape : ℕ
  sampleIndex : ℕ

/-- `AudioEngine::set_shape` in src/audio/engine.rs:
`samples_per_shape = ((sample_rate / frequency) as usize).max(10)` — note the
`as usize` cast truncates toward zero, it does not round to nearest — then the
curve is sampled at `t = i / N` for `i ∈ [0, N)`, each point scaled by the
volume, the array is published under the write lock, and `SampleIndex` is
reset to 0.  The `f32` division is modelled as exact rational division; at
every input used below the two truncate to the same integer. -/
def setShape (curveSample : ℚ → ℚ × ℚ) (sampleRate frequency volume : ℚ) :
    SetShapeResult :=
  let n := (f32AsUsize (sampleRate / frequency)).max 10
  ⟨(List.range n).map (fun (i : ℕ) =>
      let t : ℚ := (i : ℚ) / (n : ℚ)
      let p := curveSample t
      ⟨p.1 * volume, p.2 * volume⟩), n, 0⟩

lemma getD_map_range {α : Type} (g : ℕ → α) (n k : ℕ) (h : k < n) (d : α) :
    ((List.range n).map g).getD k d = g k := by
  rw [List.getD_eq_getElem _ _ (by simpa using h)]
  simp

lemma setShape_samples_eq (c : ℚ → ℚ × ℚ) (r f v : ℚ) :
    (setShape c r f v).samples =
      (List.range (setShape c r f v).samplesPerShape).map (fun i =>
        ⟨(c ((i : ℚ) / ((setShape c r f v).samplesPerShape : ℚ))).1 * v,
         (c ((i : ℚ) / ((setShape c r f v).samplesPerShape : ℚ))).2 * v⟩) := by
  unfold setShape
  rfl

@[simp] lemma setShape_sampleIndex (c : ℚ → ℚ × ℚ) (r f v : ℚ) :
    (setShape c r f v).sampleIndex = 0 := rfl

@[simp] lemma setShape_length (c : ℚ → ℚ × ℚ) (r f v : ℚ) :
    (setShape c r f v).samples.length = (setShape c r f v).samplesPerShape := by
  rw [setShape_samples_eq, List.length_map, List.length_range]

lemma setShape_sample_at (c : ℚ → ℚ × ℚ) (r f v : ℚ) (i : ℕ)
    (h : i < (setShape c r f v).samplesPerShape) :
    (setShape c r f v).samples.getD i XYSample.zero =
      ⟨(c ((i : ℚ) / ((setShape c r f v).samplesPerShape : ℚ))).1 * v,
       (c ((i : ℚ) / ((setShape c r f v).samplesPerShape : ℚ))).2 * v⟩ := by
  rw [setShape_samples_eq, getD_map_range _ _ _ h]

@[simp] lemma chain_nil_apply (x y t : ℚ) : EffectChain.apply [] x y t = (x, y) := rfl

lemma buildChain_defaults (tm : TrigModel) :
    EffectParams.buildChain tm EffectParams.defaults = [] := by
  simp [EffectParams.buildChain, EffectParams.defaults]

lemma was_data_getD {T : Type} (fromSample : ℚ → T) (equil : T) (tm : TrigModel)
    (numFrames channels : ℕ) (shape : List XYSample) (effectReadOk : Bool)
    (params : EffectParams) (sampleIndex totalSamples : ℕ) (sampleRate : ℚ)
    (hne : shape ≠ []) (k : ℕ) (hk : k < numFrames) :
    (writeAudioSamples fromSample equil tm numFrames channels true true shape
        effectReadOk params sampleIndex totalSamples sampleRate).data.getD k [] =
      renderFrame fromSample equil channels
        (postEffectAt shape (if effectReadOk then params.buildChain tm else [])
          sampleIndex totalSamples sampleRate k) := by
  unfold writeAudioSamples
  rw [if_neg (by simp [hne])]
  show (writeFrames fromSample equil channels shape
      (if effectReadOk then params.buildChain tm else []) sampleIndex totalSamples
      sampleRate 0 numFrames).1.getD k [] = _
  rw [writeFrames_data, getD_map_range _ _ _ hk]
  rw [Nat.zero_add]

lemma was_sampleIndex {T : Type} (fromSample : ℚ → T) (equil : T) (tm : TrigModel)
    (numFrames channels : ℕ) (shape : List XYSample) (effectReadOk : Bool)
    (params : EffectParams) (sampleIndex totalSamples : ℕ) (sampleRate : ℚ)
    (hne : shape ≠ []) :
    (writeAudioSamples fromSample equil tm numFrames channels true true shape
        effectReadOk params sampleIndex totalSamples sampleRate).sampleIndex =
      (sampleIndex + numFrames) % shape.length := by
  unfold writeAudioSamples
  rw [if_neg (by simp [hne])]

lemma was_totalSamples {T : Type} (fromSample : ℚ → T) (equil : T) (tm : TrigModel)
    (numFrames channels : ℕ) (shape : List XYSample) (effectReadOk : Bool)
    (params : EffectParams) (sampleIndex totalSamples : ℕ) (sampleRate : ℚ)
    (hne : shape ≠ []) :
    (writeAudioSamples fromSample equil tm numFrames channels true true shape
        effectReadOk params sampleIndex totalSamples sampleRate).totalSamples =
      totalSamples + numFrames := by
  unfold writeAudioSamples
  rw [if_neg (by simp [hne])]

/-- Claim C1: with playback enabled, both locks acquired and a non-empty
pre-sampled shape of `N` points, output frame `k` is the effect chain applied
at time `(totalSamples + k) / sampleRate` to the pre-sampled point at index
`(sampleIndex + k) mod N`, written `left = x, right = y` with equilibrium on
any extra channels when there are at least 2 channels, and as the mono mix
`(x + y) / 2` when there is one channel; afterwards `SampleIndex` becomes
`(sampleIndex + frameCount) mod N` and `TotalSampleCounter` grows by
`frameCount`.  In particular for the origin-centred circle of radius 1/2 at
trace frequency 80 Hz and sample rate 48000 Hz (using that the `f32`
functions satisfy `cos 0 = 1` and `sin 0 = 0`): `N = 600`, frame 0 of a fresh
stream is `(volume/2, 0)`, and with no effects enabled the output repeats
identically every 600 frames. -/
theorem renderCallback_per_frame :
    (∀ (T : Type) (fromSample : ℚ → T) (equil : T) (tm : TrigModel)
        (numFrames channels : ℕ) (shape : List XYSample) (effectReadOk : Bool)
        (params : EffectParams) (sampleIndex totalSamples : ℕ) (sampleRate : ℚ)
        (chain : EffectChain),
      shape ≠ [] →
      chain = (if effectReadOk then params.buildChain tm else []) →
      (∀ k, k < numFrames →
        (writeAudioSamples fromSample equil tm numFrames channels true true shape
            effectReadOk params sampleIndex totalSamples sampleRate).data.getD k [] =
          (if 2 ≤ channels then
            fromSample (postEffectAt shape chain sampleIndex totalSamples sampleRate k).1 ::
              fromSample (postEffectAt shape chain sampleIndex totalSamples sampleRate k).2 ::
              List.replicate (channels - 2) equil
          else
            [fromSample (((postEffectAt shape chain sampleIndex totalSamples sampleRate k).1 +
              (postEffectAt shape chain sampleIndex totalSamples sampleRate k).2) / 2)])) ∧
      (writeAudioSamples fromSample equil tm numFrames channels true true shape
          effectReadOk params sampleIndex totalSamples sampleRate).sampleIndex =
        (sampleIndex + numFrames) % shape.length ∧
      (writeAudioSamples fromSample equil tm numFrames channels true true shape
          effectReadOk params sampleIndex totalSamples sampleRate).totalSamples =
        totalSamples + numFrames) ∧
    (∀ (tm : TrigModel) (volume : ℚ) (numFrames : ℕ),
      tm.cos 0 = 1 → tm.sin 0 = 0 → 0 < numFrames →
      (setShape (Circle.sample tm 0 0 (1 / 2)) 48000 80 volume).samples.length = 600 ∧
      (writeAudioSamples (id : ℚ → ℚ) 0 tm numFrames 2 true true
          (setShape (Circle.sample tm 0 0 (1 / 2)) 48000 80 volume).samples
          true EffectParams.defaults 0 0 48000).data.getD 0 [] = [volume / 2, 0] ∧
      (∀ k, k + 600 < numFrames →
        (writeAudioSamples (id : ℚ → ℚ) 0 tm numFrames 2 true true
            (setShape (Circle.sample tm 0 0 (1 / 2)) 48000 80 volume).samples
            true EffectParams.defaults 0 0 48000).data.getD (k + 600) [] =
          (writeAudioSamples (id : ℚ → ℚ) 0 tm numFrames 2 true true
            (setShape (Circle.sample tm 0 0 (1 / 2)) 48000 80 volume).samples
            true EffectParams.defaults 0 0 48000).data.getD k [])) := by
  have hmain : ∀ (T : Type) (fromSample : ℚ → T) (equil : T) (tm : TrigModel)
      (numFrames channels : ℕ) (shape : List XYSample) (effectReadOk : Bool)
      (params : EffectParams) (sampleIndex totalSamples : ℕ) (sampleRate : ℚ)
      (chain : EffectChain),
      shape ≠ [] →
      chain = (if effectReadOk then params.buildChain tm else []) →
      (∀ k, k < numFrames →
        (writeAudioSamples fromSample equil tm numFrames channels true true shape
            effectReadOk params sampleIndex totalSamples sampleRate).data.getD k [] =
          (if 2 ≤ channels then
            fromSample (postEffectAt shape chain sampleIndex totalSamples sampleRate k).1 ::
              fromSample (postEffectAt shape chain sampleIndex totalSamples sampleRate k).2 ::
              List.replicate (channels - 2) equil
          else
            [fromSample (((postEffectAt shape chain sampleIndex totalSamples sampleRate k).1 +
              (postEffectAt shape chain sampleIndex totalSamples sampleRate k).2) / 2)])) ∧
      (writeAudioSamples fromSample equil tm numFrames channels true true shape
          effectReadOk params sampleIndex totalSamples sampleRate).sampleIndex =
        (sampleIndex + numFrames) % shape.length ∧
      (writeAudioSamples fromSample equil tm numFrames channels true true shape
          effectReadOk params sampleIndex totalSamples sampleRate).totalSamples =
        totalSamples + numFrames := by
    intro T fromSample equil tm numFrames channels shape effOk params idx tot rate
      chain hne hchain
    refine ⟨?_, was_sampleIndex _ _ _ _ _ _ _ _ _ _ _ hne,
      was_totalSamples _ _ _ _ _ _ _ _ _ _ _ hne⟩
    intro k hk
    rw [was_data_getD _ _ _ _ _ _ _ _ _ _ _ hne k hk, ← hchain]
    rfl
  refine ⟨hmain, ?_⟩
  intro tm volume numFrames hcos hsin hnF
  have hfloor : ⌊(48000 : ℚ) / 80⌋ = 600 := by
    rw [Int.floor_eq_iff] <;> norm_num
  have hN : (setShape (Circle.sample tm 0 0 (1 / 2)) 48000 80 volume).samplesPerShape = 600 := by
    show (f32AsUsize ((48000 : ℚ) / 80)).max 10 = 600
    unfold f32AsUsize
    rw [if_neg (by norm_num), hfloor]
    rfl
  have hlen : (setShape (Circle.sample tm 0 0 (1 / 2)) 48000 80 volume).samples.length = 600 := by
    rw [setShape_length, hN]
  have hne : (setShape (Circle.sample tm 0 0 (1 / 2)) 48000 80 volume).samples ≠ [] := by
    intro hempty
    rw [hempty] at hlen
    simp at hlen
  have hchain : ([] : EffectChain) =
      (if true then EffectParams.buildChain tm EffectParams.defaults else []) := by
    rw [if_pos rfl, buildChain_defaults]
  obtain ⟨hdata, hsidx, htot⟩ := hmain ℚ id 0 tm numFrames 2
    (setShape (Circle.sample tm 0 0 (1 / 2)) 48000 80 volume).samples true
    EffectParams.defaults 0 0 48000 [] hne hchain
  have hpe : ∀ k : ℕ,
      postEffectAt (setShape (Circle.sample tm 0 0 (1 / 2)) 48000 80 volume).samples []
        0 0 48000 k =
      (((setShape (Circle.sample tm 0 0 (1 / 2)) 48000 80 volume).samples.getD
          (k % 600) XYSample.zero).x,
       ((setShape (Circle.sample tm 0 0 (1 / 2)) 48000 80 volume).samples.getD
          (k % 600) XYSample.zero).y) := by
    intro k
    unfold postEffectAt
    rw [hlen, Nat.zero_add]
    rfl
  refine ⟨hlen, ?_, ?_⟩
  · rw [hdata 0 hnF]
    rw [if_pos (by norm_num)]
    rw [hpe 0]
    have h0 : (setShape (Circle.sample tm 0 0 (1 / 2)) 48000 80 volume).samples.getD
        (0 % 600) XYSample.zero =
        ⟨(Circle.sample tm 0 0 (1 / 2) ((0 : ℚ) / 600)).1 * volume,
         (Circle.sample tm 0 0 (1 / 2) ((0 : ℚ) / 600)).2 * volume⟩ := by
      rw [Nat.zero_mod]
      have := setShape_sample_at (Circle.sample tm 0 0 (1 / 2)) 48000 80 volume 0
        (by rw [hN]; norm_num)
      rw [this, hN]
      norm_num
    rw [h0]
    unfold Circle.sample
    simp only [zero_div, zero_mul, hcos, hsin]
    norm_num
    ring
  · intro k hk
    rw [hdata (k + 600) hk, hdata k (by omega)]
    rw [hpe (k + 600), hpe k, Nat.add_mod_right]

/-- Witness for C1 at concrete inputs: a single-point shape rendered for one
stereo frame, and the circle instance with `tmConst` and volume 1. -/
theorem renderCallback_per_frame_witness :
    (writeAudioSamples (id : ℚ → ℚ) 0 tmConst 1 2 true true [⟨3, 4⟩] true
        EffectParams.defaults 0 0 48000).data.getD 0 [] = [3, 4] ∧
    (setShape (Circle.sample tmConst 0 0 (1 / 2)) 48000 80 1).samples.length = 600 := by
  constructor
  · have h := (renderCallback_per_frame.1 ℚ id 0 tmConst 1 2 [⟨3, 4⟩] true
      EffectParams.defaults 0 0 48000 [] (by decide)
      (by rw [if_pos rfl, buildChain_defaults])).1 0 (by decide)
    rw [h]
    decide
  · exact (renderCallback_per_frame.2 tmConst 1 601 rfl rfl (by decide)).1

/-- Claim C3 (amended: the point count truncates rather than rounds): after
`set_shape`, the published array has exactly
`N = max(10, trunc(sampleRate / traceFrequency))` points — the `as usize`
cast truncates toward zero — point `i` is `curve.sample(i / N)` scaled by the
volume, and `SampleIndex` is reset to 0. -/
theorem setShape_presamples (c : ℚ → ℚ × ℚ) (rate freq vol : ℚ) :
    (setShape c rate freq vol).samplesPerShape = max 10 (f32AsUsize (rate / freq)) ∧
    (setShape c rate freq vol).samples.length =
      (setShape c rate freq vol).samplesPerShape ∧
    (∀ i, i < (setShape c rate freq vol).samplesPerShape →
      (setShape c rate freq vol).samples.getD i XYSample.zero =
        ⟨(c ((i : ℚ) / ((setShape c rate freq vol).samplesPerShape : ℚ))).1 * vol,
         (c ((i : ℚ) / ((setShape c rate freq vol).samplesPerShape : ℚ))).2 * vol⟩) ∧
    (setShape c rate freq vol).sampleIndex = 0 := by
  refine ⟨?_, setShape_length c rate freq vol, setShape_sample_at c rate freq vol, rfl⟩
  simp [setShape, Nat.max_comm]

/-- Witness for C3 (amended) at a concrete input: sample rate 15, trace
frequency 2, volume 1, constant curve; `15 / 2` truncates to 7 and is clamped
to the minimum of 10. -/
theorem setShape_presamples_witness :
    (setShape (fun _ => (1, 1)) 15 2 1).samplesPerShape = 10 ∧
    (setShape (fun _ => (1, 1)) 15 2 1).samples.length = 10 ∧
    (setShape (fun _ => (1, 1)) 15 2 1).samples.getD 3 XYSample.zero = ⟨1, 1⟩ ∧
    (setShape (fun _ => (1, 1)) 15 2 1).sampleIndex = 0 := by
  obtain ⟨h1, h2, h3, h4⟩ := setShape_presamples (fun _ => (1, 1)) 15 2 1
  have hcast : f32AsUsize ((15 : ℚ) / 2) = 7 := by
    unfold f32AsUsize
    rw [if_neg (by norm_num), show ⌊(15 : ℚ) / 2⌋ = 7 from by rw [Int.floor_eq_iff] <;> norm_num]
    rfl
  have hN : (setShape (fun _ => (1, 1)) 15 2 1).samplesPerShape = 10 := by
    rw [h1, hcast]
    decide
  refine ⟨hN, by rw [h2, hN], ?_, h4⟩
  rw [h3 3 (by rw [hN]; norm_num)]
  norm_num

/-- Counterexample to C3 as stated: at sample rate 48000 and trace frequency
70 the code computes `trunc(48000 / 70) = 685` points, while
`round(48000 / 70) = 686` (the quotient is ≈ 685.714); the published array
does not have `max(10, round(sampleRate / traceFrequency))` points. -/
theorem setShape_rounding_counterexample :
    (setShape (fun _ => (0, 0)) 48000 70 1).samples.length ≠
      max 10 (round ((48000 : ℚ) / 70)).toNat := by
  have hfloor : ⌊(48000 : ℚ) / 70⌋ = 685 := by
    rw [Int.floor_eq_iff] <;> norm_num
  have hround : round ((48000 : ℚ) / 70) = 686 := by
    rw [round_eq]
    rw [show (48000 : ℚ) / 70 + 1 / 2 = 9607 / 14 from by norm_num]
    rw [Int.floor_eq_iff] <;> norm_num
  have hlen : (setShape (fun _ => ((0 : ℚ), (0 : ℚ))) 48000 70 1).samples.length = 685 := by
    rw [setShape_length]
    show (f32AsUsize ((48000 : ℚ) / 70)).max 10 = 685
    unfold f32AsUsize
    rw [if_neg (by norm_num), hfloor]
    rfl
  rw [hlen, hround]
  decide

/-! ## Engine lifecycle (src/audio/engine.rs, `AudioEngine`)

The control surface and the stream lifecycle as a state machine.  The cpal
device/stream layer is external to the repository; its behaviour during
`start()` is supplied as a `DeviceOutcome` oracle input, and the hardware
clock driving the callback is modelled by explicit `callback` operations that
can only occur while a stream is held. -/

/-- The status strings set by `AudioEngine`, abstracted to an enumeration
(one constructor per distinct message family). -/
inductive EngineStatus where
  | ready
  | noShapeSet
  | noDevice
  | configFailed
  | unsupportedFormat
  | buildFailed
  | startFailed
  | playing
  | stopped
deriving DecidableEq

/-- Outcome of the cpal host/device/stream calls inside `AudioEngine::start`:
either one of the failure conditions, or success; the sample rate and channel
count come from the device's default output configuration. -/
inductive DeviceOutcome where
  | noDevice
  | configFailed
  | unsupportedFormat (sampleRate : ℚ) (channels : ℕ)
  | buildFailed (sampleRate : ℚ) (channels : ℕ)
  | startFailed (sampleRate : ℚ) (channels : ℕ)
  | success (sampleRate : ℚ) (channels : ℕ)

/-- The `AudioEngine` state relevant to the lifecycle claims: the
`is_playing` atomic, whether a stream is held (`stream.is_some()`), the
published pre-sampled shape, the `SampleIndex` and `TotalSampleCounter`
atomics, the device sample rate and channel count, the status, the
`AudioConfig` scalars and the shared effect parameters. -/
structure EngineState where
  isPlaying : Bool
  streamActive : Bool
  shape : List XYSample
  sampleIndex : ℕ
  totalSamples : ℕ
  sampleRate : ℚ
  channels : ℕ
  status : EngineStatus
  frequency : ℚ
  volume : ℚ
  params : EffectParams

/-- `AudioEngine::new`: not playing, no stream, empty shape, both counters 0,
sample rate 48000, status Ready, config 80 Hz at volume 0.8, default effect
parameters. -/
def EngineState.new : EngineState :=
  ⟨false, false, [], 0, 0, 48000, 2, EngineStatus.ready, 80, 4 / 5,
    EffectParams.defaults⟩

/-- `AudioEngine::set_shape` at the engine level: publish the pre-sampled
array and reset `SampleIndex` (`TotalSampleCounter` is not touched). -/
def EngineState.setShapeOp (s : EngineState) (curve : ℚ → ℚ × ℚ) : EngineState :=
  { s with shape := (setShape curve s.sampleRate s.frequency s.volume).samples,
           sampleIndex := (setShape curve s.sampleRate s.frequency s.volume).sampleIndex }

/-- `AudioEngine::set_effects`. -/
def EngineState.setEffectsOp (s : EngineState) (p : EffectParams) : EngineState :=
  { s with params := p }

/-- Direct mutation of the public `config` field by the UI. -/
def EngineState.setConfigOp (s : EngineState) (frequency volume : ℚ) : EngineState :=
  { s with frequency := frequency, volume := volume }

/-- `AudioEngine::start` with the device layer's behaviour given by the
oracle.  Mirrors the code's returns in order: already running (state
untouched), empty shape, no output device, default-config failure (all before
`self.sample_rate` is assigned), then unsupported sample format, stream-build
failure, stream-start failure (after `self.sample_rate` is assigned), and
finally success, which stores the stream, sets `is_playing` and reports
Playing. -/
def EngineState.start (s : EngineState) (o : DeviceOutcome) : EngineState :=
  if s.streamActive then s
  else if s.shape = [] then { s with status := EngineStatus.noShapeSet }
  else match o with
    | .noDevice => { s with status := EngineStatus.noDevice }
    | .configFailed => { s with status := EngineStatus.configFailed }
    | .unsupportedFormat rate _ =>
        { s with sampleRate := rate, status := EngineStatus.unsupportedFormat }
    | .buildFailed rate _ =>
        { s with sampleRate := rate, status := EngineStatus.buildFailed }
    | .startFailed rate _ =>
        { s with sampleRate := rate, status := EngineStatus.startFailed }
    | .success rate ch =>
        { s with sampleRate := rate, channels := ch, isPlaying := true,
                 streamActive := true, status := EngineStatus.playing }

/-- `AudioEngine::stop`: clear `is_playing`, drop the stream, report
Stopped. -/
def EngineState.stop (s : EngineState) : EngineState :=
  { s with isPlaying := false, streamActive := false,
           status := EngineStatus.stopped }

/-- One hardware-driven render callback: only happens while a stream is held;
runs `write_audio_samples` against the shared state. -/
def EngineState.callback (tm : TrigModel) (s : EngineState)
    (numFrames : ℕ) (shapeReadOk effectReadOk : Bool) : EngineState :=
  if s.streamActive then
    { s with
      sampleIndex := (writeAudioSamples (id : ℚ → ℚ) 0 tm numFrames s.channels
        s.isPlaying shapeReadOk s.shape effectReadOk s.params s.sampleIndex
        s.totalSamples s.sampleRate).sampleIndex,
      totalSamples := (writeAudioSamples (id : ℚ → ℚ) 0 tm numFrames s.channels
        s.isPlaying shapeReadOk s.shape effectReadOk s.params s.sampleIndex
        s.totalSamples s.sampleRate).totalSamples }
  else s

/-- The operations that can act on the engine. -/
inductive EngineOp where
  | setShape (curve : ℚ → ℚ × ℚ)
  | setEffects (p : EffectParams)
  | setConfig (frequency volume : ℚ)
  | start (o : DeviceOutcome)
  | stop
  | callback (numFrames : ℕ) (shapeReadOk effectReadOk : Bool)

/-- Apply one engine operation. -/
def EngineState.step (tm : TrigModel) (s : EngineState) : EngineOp → EngineState
  | .setShape curve => s.setShapeOp curve
  | .setEffects p => s.setEffectsOp p
  | .setConfig f v => s.setConfigOp f v
  | .start o => s.start o
  | .stop => s.stop
  | .callback n sOk eOk => s.callback tm n sOk eOk

/-- Run a sequence of engine operations from the freshly constructed
engine. -/
def EngineState.run (tm : TrigModel) (ops : List EngineOp) : EngineState :=
  ops.foldl (EngineState.step tm) EngineState.new

/-! ### Lifecycle lemmas and claims -/

lemma was_totalSamples_cases {T : Type} (fromSample : ℚ → T) (equil : T)
    (tm : TrigModel) (numFrames channels : ℕ) (isPlaying shapeReadOk : Bool)
    (shape : List XYSample) (effectReadOk : Bool) (params : EffectParams)
    (sampleIndex totalSamples : ℕ) (sampleRate : ℚ) :
    (writeAudioSamples fromSample equil tm numFrames channels isPlaying shapeReadOk
        shape effectReadOk params sampleIndex totalSamples sampleRate).totalSamples =
      if isPlaying = false ∨ shapeReadOk = false ∨ shape = [] then totalSamples
      else totalSamples + numFrames := by
  unfold writeAudioSamples
  split <;> rfl

lemma setShape_ne_nil (c : ℚ → ℚ × ℚ) (r f v : ℚ) : (setShape c r f v).samples ≠ [] := by
  intro h
  have hlen := setShape_length c r f v
  rw [h] at hlen
  have h2 : (setShape c r f v).samplesPerShape = (f32AsUsize (r / f)).max 10 := rfl
  rw [h2] at hlen
  have h3 : 10 ≤ Nat.max (f32AsUsize (r / f)) 10 := Nat.le_max_right _ _
  rw [List.length_nil] at hlen
  omega

/-- The number of output frames actually rendered by one engine operation:
positive only for a callback arriving while a stream is held, with playback
enabled, the shape lock acquired and a non-empty pre-sampled shape. -/
def renderedFrames (s : EngineState) : EngineOp → ℕ
  | .callback n sOk _ =>
      if s.streamActive = true ∧ s.isPlaying = true ∧ sOk = true ∧ s.shape ≠ []
      then n else 0
  | _ => 0

/-- Claim C7 (amended: the counter counts from engine construction, not from
stream start): `TotalSampleCounter` is 0 when the engine is constructed, each
operation changes it by exactly the number of frames that operation rendered
(so only render callbacks increase it), and it never decreases.  It is *not*
reset when a stream is started, so after a stop/start cycle it keeps counting
from its previous value. -/
theorem totalSamples_counts_rendered_frames :
    EngineState.new.totalSamples = 0 ∧
    (∀ (tm : TrigModel) (s : EngineState) (op : EngineOp),
      (EngineState.step tm s op).totalSamples = s.totalSamples + renderedFrames s op) ∧
    (∀ (tm : TrigModel) (s : EngineState) (op : EngineOp),
      s.totalSamples ≤ (EngineState.step tm s op).totalSamples) := by
  have hdelta : ∀ (tm : TrigModel) (s : EngineState) (op : EngineOp),
      (EngineState.step tm s op).totalSamples = s.totalSamples + renderedFrames s op := by
    intro tm s op
    cases op with
    | setShape c => simp [EngineState.step, EngineState.setShapeOp, renderedFrames]
    | setEffects p => simp [EngineState.step, EngineState.setEffectsOp, renderedFrames]
    | setConfig f v => simp [EngineState.step, EngineState.setConfigOp, renderedFrames]
    | start o =>
      show (s.start o).totalSamples = s.totalSamples + 0
      rw [Nat.add_zero]
      unfold EngineState.start
      split_ifs with h1 h2
      · rfl
      · rfl
      · cases o <;> rfl
    | stop => simp [EngineState.step, EngineState.stop, renderedFrames]
    | callback n sOk eOk =>
      show (s.callback tm n sOk eOk).totalSamples = _
      have hrf : renderedFrames s (EngineOp.callback n sOk eOk) =
          if s.streamActive = true ∧ s.isPlaying = true ∧ sOk = true ∧ s.shape ≠ []
          then n else 0 := rfl
      rw [hrf]
      unfold EngineState.callback
      by_cases hsa : s.streamActive
      · rw [if_pos hsa]
        show (writeAudioSamples (id : ℚ → ℚ) 0 tm n s.channels s.isPlaying sOk s.shape
          eOk s.params s.sampleIndex s.totalSamples s.sampleRate).totalSamples = _
        rw [was_totalSamples_cases]
        by_cases hply : s.isPlaying = false ∨ sOk = false ∨ s.shape = []
        · rw [if_pos hply, if_neg]
          · omega
          · rintro ⟨-, hb, hc, hd⟩
            rcases hply with h | h | h
            · rw [hb] at h; exact Bool.noConfusion h
            · rw [hc] at h; exact Bool.noConfusion h
            · exact hd h
        · rw [if_neg hply, if_pos]
          push_neg at hply
          exact ⟨by simp [hsa], by simpa using hply.1, by simpa using hply.2.1, hply.2.2⟩
      · rw [if_neg hsa, if_neg]
        · omega
        · rintro ⟨ha, -⟩
          exact hsa (by simpa using ha)
  exact ⟨rfl, hdelta, fun tm s op => by rw [hdelta tm s op]; exact Nat.le_add_right _ _⟩

/-- Counterexample to C7 as stated: after `set_shape`, a successful start, a
16-frame callback, a stop and a second successful start, the engine holds a
freshly started stream yet `TotalSampleCounter` is 16, not 0 — the counter is
never reset by `start()`, so it does not equal the samples rendered since the
current stream started. -/
theorem totalSamples_restart_counterexample :
    (EngineState.run tmConst
        [EngineOp.setShape (fun _ => (1, 0)),
         EngineOp.start (DeviceOutcome.success 48000 2),
         EngineOp.callback 16 true true,
         EngineOp.stop,
         EngineOp.start (DeviceOutcome.success 48000 2)]).streamActive = true ∧
    (EngineState.run tmConst
        [EngineOp.setShape (fun _ => (1, 0)),
         EngineOp.start (DeviceOutcome.success 48000 2),
         EngineOp.callback 16 true true,
         EngineOp.stop,
         EngineOp.start (DeviceOutcome.success 48000 2)]).totalSamples = 16 := by
  have hne := setShape_ne_nil (fun _ => ((1 : ℚ), (0 : ℚ))) 48000 80 (4 / 5)
  have hws := was_totalSamples (id : ℚ → ℚ) 0 tmConst 16 2
    (setShape (fun _ => ((1 : ℚ), (0 : ℚ))) 48000 80 (4 / 5)).samples true
    EffectParams.defaults 0 0 48000 hne
  constructor <;>
    simp [EngineState.run, EngineState.step, EngineState.setShapeOp, EngineState.start,
      EngineState.stop, EngineState.callback, EngineState.new, hne, hws]

/-- Whether a device outcome makes `start` fail. -/
def DeviceOutcome.fails : DeviceOutcome → Bool
  | .success _ _ => false
  | _ => true

/-- The status reported for each failing device outcome. -/
def DeviceOutcome.failStatus : DeviceOutcome → EngineStatus
  | .noDevice => EngineStatus.noDevice
  | .configFailed => EngineStatus.configFailed
  | .unsupportedFormat _ _ => EngineStatus.unsupportedFormat
  | .buildFailed _ _ => EngineStatus.buildFailed
  | .startFailed _ _ => EngineStatus.startFailed
  | .success _ _ => EngineStatus.playing

/-- Claim C8: `start()` is idempotent when already running — it returns with
the whole engine state untouched; with no stream held, an empty shape or any
device-layer failure (no output device, config error, unsupported sample
format, stream build failure, stream start failure) sets the corresponding
status synchronously, leaves the engine with no stream held and `is_playing`
unchanged, and performs no retry (the transition function does nothing else);
and in every reachable engine state `is_playing` agrees with holding a
stream, so a failed `start` leaves the engine Stopped (not playing).  The
model is a total function: no panic. -/
theorem start_idempotent_and_error_paths :
    (∀ (s : EngineState) (o : DeviceOutcome), s.streamActive = true → s.start o = s) ∧
    (∀ (s : EngineState) (o : DeviceOutcome), s.streamActive = false → s.shape = [] →
      s.start o = { s with status := EngineStatus.noShapeSet }) ∧
    (∀ (s : EngineState) (o : DeviceOutcome), s.streamActive = false → s.shape ≠ [] →
      o.fails = true →
      (s.start o).streamActive = false ∧ (s.start o).isPlaying = s.isPlaying ∧
      (s.start o).shape = s.shape ∧ (s.start o).totalSamples = s.totalSamples ∧
      (s.start o).status = o.failStatus) ∧
    (∀ (tm : TrigModel) (ops : List EngineOp),
      (EngineState.run tm ops).isPlaying = (EngineState.run tm ops).streamActive) := by
  refine ⟨?_, ?_, ?_, ?_⟩
  · intro s o hs
    unfold EngineState.start
    rw [if_pos hs]
  · intro s o hs hsh
    unfold EngineState.start
    rw [if_neg (by rw [hs]; exact Bool.false_ne_true), if_pos hsh]
  · intro s o hs hsh hfail
    unfold EngineState.start
    rw [if_neg (by rw [hs]; exact Bool.false_ne_true), if_neg hsh]
    cases o with
    | noDevice => exact ⟨hs, rfl, rfl, rfl, rfl⟩
    | configFailed => exact ⟨hs, rfl, rfl, rfl, rfl⟩
    | unsupportedFormat rate ch => exact ⟨hs, rfl, rfl, rfl, rfl⟩
    | buildFailed rate ch => exact ⟨hs, rfl, rfl, rfl, rfl⟩
    | startFailed rate ch => exact ⟨hs, rfl, rfl, rfl, rfl⟩
    | success rate ch => exact absurd hfail (by simp [DeviceOutcome.fails])
  · intro tm ops
    have hstep : ∀ (s : EngineState) (op : EngineOp),
        s.isPlaying = s.streamActive →
        (EngineState.step tm s op).isPlaying = (EngineState.step tm s op).streamActive := by
      intro s op h
      cases op with
      | setShape c => simpa [EngineState.step, EngineState.setShapeOp] using h
      | setEffects p => simpa [EngineState.step, EngineState.setEffectsOp] using h
      | setConfig f v => simpa [EngineState.step, EngineState.setConfigOp] using h
      | start o =>
        show (s.start o).isPlaying = (s.start o).streamActive
        unfold EngineState.start
        split_ifs with h1 h2
        · exact h
        · simpa using h
        · cases o <;> simpa using h
      | stop => simp [EngineState.step, EngineState.stop]
      | callback n sOk eOk =>
        show (s.callback tm n sOk eOk).isPlaying = (s.callback tm n sOk eOk).streamActive
        unfold EngineState.callback
        split_ifs <;> simpa using h
    have hrun : ∀ (acc : EngineState), acc.isPlaying = acc.streamActive →
        (ops.foldl (EngineState.step tm) acc).isPlaying =
          (ops.foldl (EngineState.step tm) acc).streamActive := by
      induction ops with
      | nil => intro acc h; exact h
      | cons op rest ih =>
        intro acc h
        exact ih _ (hstep acc op h)
    exact hrun EngineState.new rfl

/-- Witness for C8 at concrete inputs: idempotence on a running engine, the
no-shape status, and the no-device status on a stopped engine with a shape. -/
theorem start_idempotent_and_error_paths_witness :
    ({ EngineState.new with streamActive := true } : EngineState).start
        DeviceOutcome.noDevice = { EngineState.new with streamActive := true } ∧
    EngineState.new.start DeviceOutcome.noDevice =
      { EngineState.new with status := EngineStatus.noShapeSet } ∧
    (({ EngineState.new with shape := [⟨1, 1⟩] } : EngineState).start
        DeviceOutcome.noDevice).streamActive = false ∧
    (({ EngineState.new with shape := [⟨1, 1⟩] } : EngineState).start
        DeviceOutcome.noDevice).status = EngineStatus.noDevice := by
  refine ⟨start_idempotent_and_error_paths.1 _ DeviceOutcome.noDevice rfl,
    start_idempotent_and_error_paths.2.1 _ DeviceOutcome.noDevice rfl rfl, ?_, ?_⟩
  · exact (start_idempotent_and_error_paths.2.2.1 _ DeviceOutcome.noDevice rfl
      (by intro h; exact List.noConfusion h) rfl).1
  · exact (start_idempotent_and_error_paths.2.2.1 _ DeviceOutcome.noDevice rfl
      (by intro h; exact List.noConfusion h) rfl).2.2.2.2

end OsciRs
